import Mathlib

/-
Shallow embedding of the audio timeline reconciliation engine of the
AutoDub repository.

Embedded modules:
  src/autodub/pipeline/align_improved.py  (class ImprovedAligner)
  src/autodub/pipeline/align_simple.py    (align_segments_simple, adjust_audio_simple)
  src/autodub/pipeline/align.py           (align_segments, adjust_audio_speed)

Modelling conventions:
  - Python floats are modelled as rationals (exact arithmetic on the
    constants as written in the source).
  - A pydub AudioSegment is modelled as a list of integer samples at
    one-millisecond granularity, so List.length is the duration in ms.
  - The external ffmpeg atempo primitive is an oracle parameter
    (audio, filter chain) -> Option adjusted-audio; none models a
    non-zero exit status / CalledProcessError.
  - Python int(x) truncates toward zero: pyInt.
  - Python a[:-k] slicing (including the a[:-0] == a[:0] corner) : pyNegSlice.
-/

namespace AutoDub

/-- Python int(x): truncation of a rational toward zero. -/
def pyInt (q : ℚ) : ℤ := if 0 ≤ q then ⌊q⌋ else -⌊-q⌋

/-- Python list slicing a[:-k] for a nonnegative k, at millisecond
granularity.  Note that for k = 0 Python yields a[:0] = [], the empty
list, not a itself. -/
def pyNegSlice (k : ℕ) (l : List ℤ) : List ℤ :=
  if k = 0 then [] else l.take (l.length - k)

/-- A rational extended with the float value inf used by
align_improved.py for the last segment's forward gap. -/
inductive QInf
  | fin (q : ℚ)
  | inf
deriving DecidableEq

/-- Multiplication of a possibly-infinite gap by a positive constant
(Python: inf * 0.5 = inf). -/
def QInf.scale (x : QInf) (c : ℚ) : QInf :=
  match x with
  | .fin q => .fin (q * c)
  | .inf => .inf

/-- Python min of a finite float and a possibly-infinite float
(min q inf = q). -/
def qinfMinQ (a : ℚ) (x : QInf) : ℚ :=
  match x with
  | .fin b => min a b
  | .inf => a

/-- An input segment: start and end times in seconds on the original
timeline plus the synthesized clip.  The source field named end is
called stop here because end is a Lean keyword; audio = none models a
missing or unreadable audio_path (failed synthesis). -/
structure Segment where
  start : ℚ
  stop : ℚ
  audio : Option (List ℤ)
deriving DecidableEq

/-- The external tempo primitive: given the input audio and the ordered
atempo filter chain, returns the adjusted audio, or none on failure. -/
abbrev ChainOracle := List ℤ → List ℚ → Option (List ℤ)

/- ===== ImprovedAligner constants (align_improved.py lines 12-19) ===== -/

def MAX_SPEED_FACTOR : ℚ := 1.4
def MIN_SPEED_FACTOR : ℚ := 0.7
def PERFECT_THRESHOLD : ℚ := 0.05
def GENTLE_THRESHOLD : ℚ := 0.15
def MODERATE_THRESHOLD : ℚ := 0.30

/-- ImprovedAligner.calculate_gentle_speed (align_improved.py lines
67-91).  At duration_ratio = 0 the Python source raises
ZeroDivisionError computing adjust_factor; in the rational model 1/0 = 0.
The tiered claims are stated for positive ratios only. -/
def calculateGentleSpeed (duration_ratio : ℚ) : ℚ :=
  if |1 - duration_ratio| ≤ PERFECT_THRESHOLD then 1
  else if |1 - duration_ratio| ≤ GENTLE_THRESHOLD then
    max MIN_SPEED_FACTOR (min MAX_SPEED_FACTOR (1 + (1 / duration_ratio - 1) * 0.5))
  else if |1 - duration_ratio| ≤ MODERATE_THRESHOLD then
    max MIN_SPEED_FACTOR (min MAX_SPEED_FACTOR (1 + (1 / duration_ratio - 1) * 0.7))
  else max MIN_SPEED_FACTOR (min MAX_SPEED_FACTOR (1 / duration_ratio))

/-- adjust_audio_simple (align_simple.py lines 104-135): the factor is
clamped to the ffmpeg atempo limits first, then the chain branches are
examined; the value returned is the ordered atempo filter chain passed
to ffmpeg. -/
def adjustSimpleChain (f : ℚ) : List ℚ :=
  if max 0.5 (min 2.0 f) < 0.5 then [0.5, 0.8]
  else if 2.0 < max 0.5 (min 2.0 f) then [2.0, 1.5]
  else [max 0.5 (min 2.0 f)]

/-- Claim C1: for every positive duration_ratio the tempo policy maps
deviation = abs (1 - ratio) to the specified tier formula (perfect 1.0,
gentle half correction, moderate seven-tenths correction, aggressive
full correction, each clamped to bounds), and the committed factor
always lies in the closed interval from MIN_FACTOR 0.7 to MAX_FACTOR 1.4. -/
theorem C1_policy (r : ℚ) (_hr : 0 < r) :
    (|1 - r| ≤ 0.05 → calculateGentleSpeed r = 1) ∧
    (0.05 < |1 - r| → |1 - r| ≤ 0.15 →
      calculateGentleSpeed r = max 0.7 (min 1.4 (1 + (1 / r - 1) * 0.5))) ∧
    (0.15 < |1 - r| → |1 - r| ≤ 0.30 →
      calculateGentleSpeed r = max 0.7 (min 1.4 (1 + (1 / r - 1) * 0.7))) ∧
    (0.30 < |1 - r| → calculateGentleSpeed r = max 0.7 (min 1.4 (1 / r))) ∧
    ((0.7 : ℚ) ≤ calculateGentleSpeed r ∧ calculateGentleSpeed r ≤ 1.4) := by
  have hb : ∀ x : ℚ, (0.7 : ℚ) ≤ max 0.7 (min 1.4 x) ∧ max 0.7 (min 1.4 x) ≤ 1.4 := by
    intro x
    exact ⟨le_max_left _ _, max_le (by norm_num) (min_le_left _ _)⟩
  simp only [calculateGentleSpeed, PERFECT_THRESHOLD, GENTLE_THRESHOLD,
    MODERATE_THRESHOLD, MIN_SPEED_FACTOR, MAX_SPEED_FACTOR]
  refine ⟨?_, ?_, ?_, ?_, ?_⟩
  · intro h; rw [if_pos h]
  · intro h1 h2; rw [if_neg (not_le.mpr h1), if_pos h2]
  · intro h1 h2
    rw [if_neg (by rw [not_le]; linarith), if_neg (not_le.mpr h1), if_pos h2]
  · intro h1
    rw [if_neg (by rw [not_le]; linarith), if_neg (by rw [not_le]; linarith),
      if_neg (not_le.mpr h1)]
  · split_ifs with h1 h2 h3
    · exact ⟨by norm_num, by norm_num⟩
    · exact hb _
    · exact hb _
    · exact hb _

/-- Witness for C1 at the concrete gentle-tier ratio 9/10. -/
theorem C1_witness :
    (0.7 : ℚ) ≤ calculateGentleSpeed (9 / 10) ∧ calculateGentleSpeed (9 / 10) ≤ 1.4 :=
  (C1_policy (9 / 10) (by norm_num)).2.2.2.2

/-- Claim C10: in the overlay-mode speed adjuster the atempo factor is
clamped to the interval from 0.5 to 2.0 before the out-of-range chain
branches are tested, so for every input factor the function emits a
single stage equal to the clamped factor, which lies within the
primitive's range; the multi-stage branches are unreachable. -/
theorem C10_clamp_single_stage (f : ℚ) :
    adjustSimpleChain f = [max 0.5 (min 2.0 f)] ∧
    (0.5 : ℚ) ≤ max 0.5 (min 2.0 f) ∧ max 0.5 (min 2.0 f) ≤ 2.0 := by
  have h1 : (0.5 : ℚ) ≤ max 0.5 (min 2.0 f) := le_max_left _ _
  have h2 : max 0.5 (min 2.0 f) ≤ 2.0 := max_le (by norm_num) (min_le_left _ _)
  refine ⟨?_, h1, h2⟩
  rw [adjustSimpleChain, if_neg (not_lt.mpr h1), if_neg (not_lt.mpr h2)]

/- ===== TempoFilterChain (align_improved.py, adjust_audio_speed lines
93-120) ===== -/

/-- One fuel-indexed unrolling of the while loop of adjust_audio_speed
(align_improved.py lines 106-112): while the remaining factor is below
0.5 emit a 0.5 stage and divide by 0.5; while above 2.0 emit a 2.0
stage and divide by 2.0.  Returns the emitted stages and the residual. -/
def chainLoop : ℕ → ℚ → List ℚ × ℚ
  | 0, f => ([], f)
  | n + 1, f =>
    if f < 0.5 then
      (0.5 :: (chainLoop n (f / 0.5)).1, (chainLoop n (f / 0.5)).2)
    else if 2.0 < f then
      (2.0 :: (chainLoop n (f / 2.0)).1, (chainLoop n (f / 2.0)).2)
    else ([], f)

/-- Fuel sufficient for chainLoop to reach a residual inside the atempo
range, for a positive factor.  (The Python while loop needs no fuel; for
a factor that is not positive it would never terminate, which is why
the loop lemmas below assume positivity.) -/
def chainFuel (f : ℚ) : ℕ :=
  if f < 0.5 then (Int.ceil (1 / f)).toNat
  else if 2.0 < f then (Int.ceil f).toNat
  else 0

/-- The stage list built by adjust_audio_speed (lines 103-115): the
while-loop stages followed by the residual when it differs from 1.0 by
more than 0.01. -/
def chainStages (f : ℚ) : List ℚ :=
  if 0.01 < |(chainLoop (chainFuel f) f).2 - 1| then
    (chainLoop (chainFuel f) f).1 ++ [(chainLoop (chainFuel f) f).2]
  else (chainLoop (chainFuel f) f).1

lemma ceil_half_lt {x : ℚ} (hx : 1 < x) : ⌈x / 2⌉ < ⌈x⌉ := by
  have h2 : (1 : ℤ) < ⌈x⌉ := Int.lt_ceil.mpr (by push_cast; linarith)
  have h2q : (2 : ℚ) ≤ (⌈x⌉ : ℚ) := by
    have : (2 : ℤ) ≤ ⌈x⌉ := by omega
    exact_mod_cast this
  have hle : x ≤ (⌈x⌉ : ℚ) := Int.le_ceil x
  have hstep : ⌈x / 2⌉ ≤ ⌈x⌉ - 1 := by
    rw [Int.ceil_le]
    push_cast
    linarith
  omega

lemma chainFuel_lt_low {f : ℚ} (h0 : 0 < f) (h : f < 0.5) :
    chainFuel (f / 0.5) < chainFuel f := by
  have hx : (2 : ℚ) < 1 / f := by
    rw [lt_div_iff₀ h0]; linarith
  have hfx : chainFuel f = (Int.ceil (1 / f)).toNat := by
    rw [chainFuel, if_pos h]
  have hceil : (2 : ℤ) < ⌈1 / f⌉ := Int.lt_ceil.mpr (by push_cast; linarith)
  have hdiv : f / 0.5 = 2 * f := by ring
  by_cases h2 : f / 0.5 < 0.5
  · have hfe : chainFuel (f / 0.5) = (Int.ceil (1 / (f / 0.5))).toNat := by
      rw [chainFuel, if_pos h2]
    rw [hfe, hfx]
    have hhalf : 1 / (f / 0.5) = (1 / f) / 2 := by ring
    have := ceil_half_lt (x := 1 / f) (by linarith)
    rw [hhalf]
    omega
  · have hnot2 : ¬ (2.0 : ℚ) < f / 0.5 := by
      rw [not_lt, hdiv]
      linarith
    have hfe : chainFuel (f / 0.5) = 0 := by
      rw [chainFuel, if_neg h2, if_neg hnot2]
    rw [hfe, hfx]
    omega

lemma chainFuel_lt_high {f : ℚ} (h : 2.0 < f) :
    chainFuel (f / 2.0) < chainFuel f := by
  have h0 : (0 : ℚ) < f := by linarith
  have hnotlow : ¬ f < 0.5 := by rw [not_lt]; linarith
  have hfx : chainFuel f = (Int.ceil f).toNat := by
    rw [chainFuel, if_neg hnotlow, if_pos h]
  have hceil : (2 : ℤ) < ⌈f⌉ := Int.lt_ceil.mpr (by push_cast; linarith)
  have hh : f / 2.0 = f / 2 := by norm_num
  have hnotlow2 : ¬ f / 2.0 < 0.5 := by rw [not_lt, hh]; linarith
  by_cases h2 : (2.0 : ℚ) < f / 2.0
  · have hfe : chainFuel (f / 2.0) = (Int.ceil (f / 2.0)).toNat := by
      rw [chainFuel, if_neg hnotlow2, if_pos h2]
    rw [hfe, hfx]
    have := ceil_half_lt (x := f) (by linarith)
    rw [hh]
    omega
  · have hfe : chainFuel (f / 2.0) = 0 := by
      rw [chainFuel, if_neg hnotlow2, if_neg h2]
    rw [hfe, hfx]
    omega

lemma chainLoop_prod (n : ℕ) (f : ℚ) :
    ((chainLoop n f).1.prod) * (chainLoop n f).2 = f := by
  induction n generalizing f with
  | zero => simp [chainLoop]
  | succ n ih =>
    rw [chainLoop]
    split_ifs with h1 h2
    · have := ih (f / 0.5)
      simp only [List.prod_cons]
      rw [mul_assoc, this]
      ring
    · have := ih (f / 2.0)
      simp only [List.prod_cons]
      rw [mul_assoc, this]
      ring
    · simp

lemma chainLoop_mem (n : ℕ) (f : ℚ) :
    ∀ s ∈ (chainLoop n f).1, s = 0.5 ∨ s = 2.0 := by
  induction n generalizing f with
  | zero => simp [chainLoop]
  | succ n ih =>
    rw [chainLoop]
    split_ifs with h1 h2
    · intro s hs
      rcases List.mem_cons.mp hs with h | h
      · exact Or.inl h
      · exact ih (f / 0.5) s h
    · intro s hs
      rcases List.mem_cons.mp hs with h | h
      · exact Or.inr h
      · exact ih (f / 2.0) s h
    · simp

lemma chainLoop_range (n : ℕ) (f : ℚ) (hf : 0 < f) (hn : chainFuel f ≤ n) :
    (0.5 : ℚ) ≤ (chainLoop n f).2 ∧ (chainLoop n f).2 ≤ 2.0 := by
  induction n generalizing f with
  | zero =>
    have hz : chainFuel f = 0 := Nat.le_zero.mp hn
    by_cases h1 : f < 0.5
    · exfalso
      have hx : (2 : ℚ) < 1 / f := by rw [lt_div_iff₀ hf]; linarith
      have hceil : (2 : ℤ) < ⌈1 / f⌉ := Int.lt_ceil.mpr (by push_cast; linarith)
      rw [chainFuel, if_pos h1] at hz
      omega
    · by_cases h2 : (2.0 : ℚ) < f
      · exfalso
        have hceil : (2 : ℤ) < ⌈f⌉ := Int.lt_ceil.mpr (by push_cast; linarith)
        rw [chainFuel, if_neg h1, if_pos h2] at hz
        omega
      · rw [chainLoop]
        exact ⟨not_lt.mp h1, not_lt.mp h2⟩
  | succ n ih =>
    rw [chainLoop]
    split_ifs with h1 h2
    · exact ih (f / 0.5) (by positivity) (by have := chainFuel_lt_low hf h1; omega)
    · exact ih (f / 2.0) (by positivity) (by have := chainFuel_lt_high h2; omega)
    · exact ⟨not_lt.mp h1, not_lt.mp h2⟩

/-- Counterexample to claim C2 as stated: at the target factor 2.01 the
while loop emits one 2.0 stage, leaving residual 1.005, which differs
from 1.0 by no more than 0.01 and is therefore dropped; the decomposition
is the single stage 2.0, whose product 2 misses 2.01 by a relative error
of about 5e-3, outside the claimed 1e-3 relative tolerance. -/
theorem C2_counterexample :
    chainStages (201 / 100) = [2.0] ∧
    ¬ |(chainStages (201 / 100)).prod - 201 / 100| ≤ (1 / 1000) * (201 / 100) := by
  have hceil : ⌈(201 / 100 : ℚ)⌉ = 3 := by norm_num [Int.ceil_eq_iff]
  have hfuel : chainFuel (201 / 100) = 3 := by
    rw [chainFuel, if_neg (by norm_num), if_pos (by norm_num), hceil]
    rfl
  have harg : (201 / 100 : ℚ) / 2.0 = 201 / 200 := by norm_num
  have hloop : chainLoop 3 (201 / 100) = ([2.0], 201 / 200) := by
    rw [chainLoop, if_neg (by norm_num), if_pos (by norm_num), harg,
      chainLoop, if_neg (by norm_num), if_neg (by norm_num)]
  have habs : |(201 / 200 : ℚ) - 1| = 1 / 200 := by
    rw [abs_of_pos (by norm_num)]
    norm_num
  have hstages : chainStages (201 / 100) = [2.0] := by
    rw [chainStages, hfuel, hloop]
    simp only
    rw [habs, if_neg (by norm_num)]
  refine ⟨hstages, ?_⟩
  rw [hstages]
  simp only [List.prod_singleton]
  rw [abs_of_neg (by norm_num)]
  norm_num

/-- Claim C2 (amended): for every positive target factor the
decomposition emits stages each inside the primitive range from 0.5 to
2.0, and the stage product reproduces the factor within a relative
tolerance of 1/99 (about 1.02e-2, forced by the 0.01 residual epsilon) —
not within the claimed 1e-3. -/
theorem C2_tempo_chain (f : ℚ) (hf : 0 < f) :
    (∀ s ∈ chainStages f, (0.5 : ℚ) ≤ s ∧ s ≤ 2.0) ∧
    |(chainStages f).prod - f| ≤ f * (1 / 99) := by
  have hprod := chainLoop_prod (chainFuel f) f
  have hmem := chainLoop_mem (chainFuel f) f
  have hrange := chainLoop_range (chainFuel f) f hf le_rfl
  set r := (chainLoop (chainFuel f) f).2 with hr
  have hrpos : (0 : ℚ) < r := lt_of_lt_of_le (by norm_num) hrange.1
  rw [chainStages]
  split_ifs with hres
  · constructor
    · intro s hs
      rcases List.mem_append.mp hs with h | h
      · rcases hmem s h with h5 | h5 <;> rw [h5] <;> norm_num
      · rw [List.mem_singleton.mp h]
        exact hrange
    · rw [List.prod_append, List.prod_singleton, hprod]
      simp only [sub_self, abs_zero]
      positivity
  · have habs : |r - 1| ≤ 0.01 := not_lt.mp hres
    have hrlo : (99 / 100 : ℚ) ≤ r := by
      rcases abs_le.mp habs with ⟨h1, h2⟩
      linarith
    constructor
    · intro s hs
      rcases hmem s hs with h5 | h5 <;> rw [h5] <;> norm_num
    · have hprodval : (chainLoop (chainFuel f) f).1.prod = f / r := by
        field_simp
        linarith [hprod]
      rw [hprodval]
      have hkey : f / r - f = f * (1 - r) / r := by
        field_simp
        ring
      rw [hkey, abs_div, abs_mul, abs_of_pos hf, abs_of_pos hrpos]
      have h1r : |1 - r| ≤ 1 / 100 := by
        rw [abs_sub_comm] at habs
        calc |1 - r| ≤ 0.01 := habs
        _ = 1 / 100 := by norm_num
      calc f * |1 - r| / r ≤ f * (1 / 100) / (99 / 100) := by
            apply div_le_div₀ (by positivity)
              (mul_le_mul_of_nonneg_left h1r (le_of_lt hf)) (by norm_num) hrlo
      _ = f * (1 / 99) := by ring

/-- Witness for C2 at the concrete factor 3: decomposition [2.0, 1.5]
with exact product 3. -/
theorem C2_witness : |(chainStages 3).prod - 3| ≤ 3 * (1 / 99) :=
  (C2_tempo_chain 3 (by norm_num)).2

/- ===== ImprovedAligner.analyze_timing (align_improved.py lines 24-65) ===== -/

/-- The per-segment timing dictionary built by analyze_timing.  Fields
mirror the source keys; current_duration_ms is audio.length. -/
structure TimingInfo where
  index : ℕ
  start_ms : ℤ
  end_ms : ℤ
  target : ℤ
  audio : List ℤ
  ratio : ℚ
  silence_before : ℚ
  silence_after : QInf
  adjustment_needed : Bool
deriving DecidableEq

/-- The timing record for index i of the segment list, or none when the
segment has no audio (the loop's continue).  prev_end is the raw float
product of the previous segment's end and 1000 (not int-truncated, unlike
start_ms), exactly as in the source; at target = 0 the source would raise
ZeroDivisionError, while the rational model yields ratio 0. -/
def timingAt (segments : List Segment) (i : ℕ) : Option TimingInfo :=
  (segments.get? i).bind fun seg =>
    seg.audio.map fun audio =>
        { index := i
          start_ms := pyInt (seg.start * 1000)
          end_ms := pyInt (seg.stop * 1000)
          target := pyInt (seg.stop * 1000) - pyInt (seg.start * 1000)
          audio := audio
          ratio := (audio.length : ℚ) /
            ((pyInt (seg.stop * 1000) - pyInt (seg.start * 1000) : ℤ) : ℚ)
          silence_before := ((pyInt (seg.start * 1000) : ℤ) : ℚ) -
            (if 0 < i then
              (match segments.get? (i - 1) with
               | some p => p.stop * 1000
               | none => 0)
             else 0)
          silence_after :=
            (if i < segments.length - 1 then
              (match segments.get? (i + 1) with
               | some nx => QInf.fin (nx.start * 1000 - ((pyInt (seg.stop * 1000) : ℤ) : ℚ))
               | none => QInf.inf)
             else QInf.inf)
          adjustment_needed :=
            decide (PERFECT_THRESHOLD < |1 - (audio.length : ℚ) /
              ((pyInt (seg.stop * 1000) - pyInt (seg.start * 1000) : ℤ) : ℚ)|) }

/-- ImprovedAligner.analyze_timing: one record per segment that carries
audio, in segment order. -/
def analyzeTiming (segments : List Segment) : List TimingInfo :=
  (List.range segments.length).filterMap (timingAt segments)

/- ===== ImprovedAligner.adjust_audio_speed (lines 93-134) ===== -/

/-- ImprovedAligner.adjust_audio_speed: near-unity factors skip the
primitive; an empty filter list skips the primitive; a failed primitive
call falls back to the unmodified input clip. -/
def adjustSpeedImproved (tempo : ChainOracle) (audio : List ℤ) (f : ℚ) : List ℤ :=
  if |f - 1| < 0.01 then audio
  else if chainStages f = [] then audio
  else
    match tempo audio (chainStages f) with
    | some adjusted => adjusted
    | none => audio

/- ===== ImprovedAligner.apply_smart_alignment (lines 136-203) ===== -/

/-- One iteration of the apply_smart_alignment loop.  State: the track
emitted so far and last_position_ms.  Mirrors the source, including the
borrow guard combined[:-int(can_borrow_before)] via pyNegSlice. -/
def smartStep (tempo : ChainOracle) (st : List ℤ × ℤ) (info : TimingInfo) :
    List ℤ × ℤ :=
  let combined :=
    if st.2 < info.start_ms then
      st.1 ++ List.replicate (info.start_ms - st.2).toNat 0
    else st.1
  if info.adjustment_needed = false then
    (combined ++ info.audio, info.start_ms + (info.audio.length : ℤ))
  else
    if calculateGentleSpeed info.ratio = 1 then
      (combined ++ info.audio, info.start_ms + (info.audio.length : ℤ))
    else
      let adjusted := adjustSpeedImproved tempo info.audio (calculateGentleSpeed info.ratio)
      let overhang : ℤ := (adjusted.length : ℤ) - info.target
      if 0 < overhang then
        let canB : ℚ := min ((overhang : ℚ) / 2) (info.silence_before * 0.5)
        let canA : ℚ := qinfMinQ ((overhang : ℚ) / 2) (info.silence_after.scale 0.5)
        if (overhang : ℚ) * 0.8 ≤ canB + canA then
          ((if 0 < canB ∧ canB < (combined.length : ℚ) then
              pyNegSlice (pyInt canB).toNat combined
            else combined) ++ adjusted,
           info.start_ms + (adjusted.length : ℤ))
        else
          (combined ++ adjusted.take info.target.toNat,
           info.start_ms + (adjusted.length : ℤ))
      else
        (combined ++ adjusted, info.start_ms + (adjusted.length : ℤ))

/-- ImprovedAligner.apply_smart_alignment over a full analysis list,
starting from the empty track and last_position_ms = 0. -/
def applySmartAlignment (tempo : ChainOracle) (infos : List TimingInfo) : List ℤ :=
  (infos.foldl (smartStep tempo) ([], 0)).1

/-- ImprovedAligner.align_segments (lines 205-219): analyze, then apply
smart alignment.  There is no emptiness precondition check in the
source; an empty list flows through and yields an empty track. -/
def alignImprovedRun (tempo : ChainOracle) (segments : List Segment) : List ℤ :=
  applySmartAlignment tempo (analyzeTiming segments)

/- ===== align_simple.py ===== -/

/-- pydub overlay at a millisecond position: samples are mixed
additively inside the base track's extent; the overlaid clip is
truncated at the end of the base and never extends it. -/
def overlay (base clip : List ℤ) (pos : ℕ) : List ℤ :=
  base.mapIdx (fun i b => if pos ≤ i then b + clip.getD (i - pos) 0 else b)

/-- One iteration of the align_segments_simple loop (lines 25-91).  The
whole body sits in a try/except that skips the segment on any failure,
so a failing primitive call (oracle none) or the ZeroDivisionError at
target = 0 leaves the track unchanged. -/
def simpleStep (tempo : ChainOracle) (combined : List ℤ) (seg : Segment) : List ℤ :=
  match seg.audio with
  | none => combined
  | some audio =>
    let start_ms := pyInt (seg.start * 1000)
    let target := pyInt (seg.stop * 1000) - start_ms
    if audio.length = 0 then combined
    else if target = 0 then combined
    else
      let s : ℚ := (audio.length : ℚ) / ((target : ℤ) : ℚ)
      if s ≤ 1.15 then
        if 1 < s then
          match tempo audio (adjustSimpleChain s) with
          | some adjusted => overlay combined adjusted start_ms.toNat
          | none => combined
        else overlay combined audio start_ms.toNat
      else if s ≤ 2.0 then
        match tempo audio (adjustSimpleChain s) with
        | some adjusted => overlay combined adjusted start_ms.toNat
        | none => combined
      else overlay combined (audio.take target.toNat) start_ms.toNat

/-- align_segments_simple (lines 7-102): none models the ValueError
raised for an empty segment list, before the silent base buffer sized
to the last segment's end is allocated. -/
def alignSimple (tempo : ChainOracle) (segments : List Segment) :
    Option (List ℤ) :=
  match segments.getLast? with
  | none => none
  | some last =>
      some (segments.foldl (simpleStep tempo)
        (List.replicate (pyInt (last.stop * 1000)).toNat 0))

/- ===== align.py ===== -/

/-- The tempo-failure fallback of align.py line 66: truncate when the
clip exceeds the target window, otherwise append it unchanged (no
padding). -/
def truncOrKeep (audio : List ℤ) (target : ℤ) : List ℤ :=
  if target < (audio.length : ℤ) then audio.take target.toNat else audio

/-- The out-of-range fallback of align.py lines 67-74: truncate when the
clip exceeds the target window, otherwise pad with trailing silence up
to the target window. -/
def truncOrPad (audio : List ℤ) (target : ℤ) : List ℤ :=
  if target < (audio.length : ℤ) then audio.take target.toNat
  else audio ++ List.replicate (target - (audio.length : ℤ)).toNat 0

/-- One iteration of the align_segments loop of align.py (lines 38-76):
gap silence, then place as-is for speed factors in [0.8, 1.2], else try
the clamped single-stage tempo primitive (adjust_audio_speed lines
13-26) with the line-66 fallback on failure, else truncate or pad. -/
def alignPyStep (tempo : ChainOracle) (combined : List ℤ) (lastEnd : ℤ)
    (seg : Segment) : List ℤ :=
  match seg.audio with
  | none => combined
  | some audio =>
    let start_ms := pyInt (seg.start * 1000)
    let target := pyInt (seg.stop * 1000) - start_ms
    let withGap :=
      if lastEnd < start_ms then
        combined ++ List.replicate (start_ms - lastEnd).toNat 0
      else combined
    let sf : ℚ := (audio.length : ℚ) / ((target : ℤ) : ℚ)
    if 0.8 ≤ sf ∧ sf ≤ 1.2 then withGap ++ audio
    else
      if 0.5 ≤ 1 / sf ∧ 1 / sf ≤ 2.0 then
        match tempo audio [max 0.5 (min 2.0 (1 / sf))] with
        | some adjusted => withGap ++ adjusted
        | none => withGap ++ truncOrKeep audio target
      else withGap ++ truncOrPad audio target

/- ===== Theorems about the simple (overlay) compositor ===== -/

lemma overlay_length (base clip : List ℤ) (pos : ℕ) :
    (overlay base clip pos).length = base.length := by
  simp [overlay]

lemma simpleStep_length (tempo : ChainOracle) (c : List ℤ) (seg : Segment) :
    (simpleStep tempo c seg).length = c.length := by
  rw [simpleStep]
  cases seg.audio with
  | none => rfl
  | some audio =>
    dsimp only
    repeat' split
    all_goals simp [overlay_length]

lemma simpleFold_length (tempo : ChainOracle) (segs : List Segment) (c : List ℤ) :
    (segs.foldl (simpleStep tempo) c).length = c.length := by
  induction segs generalizing c with
  | nil => rfl
  | cons a tl ih => rw [List.foldl_cons, ih, simpleStep_length]

/-- Claim C4: in overlay mode, for every non-empty segment list the
composed master track's length equals the last segment's end converted
to milliseconds, no matter how clips are placed, adjusted, truncated or
skipped: the base buffer is allocated at that size and pydub overlay
never extends its base. -/
theorem C4_overlay_length (tempo : ChainOracle) (segments : List Segment)
    (last : Segment) (h : segments.getLast? = some last) :
    ∃ track, alignSimple tempo segments = some track ∧
      track.length = (pyInt (last.stop * 1000)).toNat := by
  refine ⟨List.foldl (simpleStep tempo)
    (List.replicate (pyInt (last.stop * 1000)).toNat 0) segments, ?_, ?_⟩
  · simp only [alignSimple, h]
  · rw [simpleFold_length, List.length_replicate]

/-- Witness for C4: a single segment ending at 2 ms with no audio
yields a 2 ms silent master track. -/
theorem C4_witness :
    ∃ track, alignSimple (fun _ _ => none) [⟨0, 1 / 500, none⟩] = some track ∧
      track.length = (pyInt ((⟨0, 1 / 500, none⟩ : Segment).stop * 1000)).toNat :=
  C4_overlay_length (fun _ _ => none) [⟨0, 1 / 500, none⟩] ⟨0, 1 / 500, none⟩ rfl

/- ===== Error handling: empty input (C8) and tempo failure (C5) ===== -/

/-- Counterexample to claim C8 as stated: the improved engine does not
report a precondition failure on an empty segment list; it runs to
completion and returns an empty master track. -/
theorem C8_counterexample : alignImprovedRun (fun _ _ => none) [] = ([] : List ℤ) := rfl

/-- Claim C8 (amended): on an empty segment list the simple aligner
reports the precondition failure (none, the raised ValueError) before
any buffer allocation, but the improved aligner does not fail: it
returns an empty track. -/
theorem C8_empty_precondition (tempo : ChainOracle) :
    alignSimple tempo [] = none ∧ alignImprovedRun tempo [] = [] :=
  ⟨rfl, rfl⟩

/-- Counterexample to claim C5 as stated: in the simple engine a
failing tempo primitive does not lead to a fallback placement of the
unmodified original clip; the whole segment is skipped, so the master
track stays pure silence, unlike the overlay of the original clip that
the claim requires. -/
theorem C5_counterexample :
    alignSimple (fun _ _ => none) [⟨0, 1 / 1000, some [1, 1]⟩] = some [0] ∧
    overlay [0] [1, 1] 0 ≠ [0] := by
  constructor
  · have hpy1 : pyInt ((1 / 1000 : ℚ) * 1000) = 1 := by
      rw [pyInt, if_pos (by norm_num)]
      norm_num
    have hpy0 : pyInt ((0 : ℚ) * 1000) = 0 := by
      rw [pyInt, if_pos (by norm_num)]
      norm_num
    simp only [alignSimple, List.getLast?_singleton, List.foldl_cons, List.foldl_nil,
      simpleStep, hpy1, hpy0]
    norm_num
  · decide

/-- Claim C5 (amended): when the tempo primitive or filter chain fails,
the improved aligner falls back to the segment's unmodified original
clip, and the overall composition is never aborted by a per-segment
failure (for any oracle and non-empty input the simple engine still
returns a track); the simple engine, however, skips the failed segment
instead of placing its original clip. -/
theorem C5_failure_recovery (tempoA : ChainOracle) (audio : List ℤ) (f : ℚ)
    (segs : List Segment) (h : segs ≠ []) :
    adjustSpeedImproved (fun _ _ => none) audio f = audio ∧
    ∃ t, alignSimple tempoA segs = some t := by
  constructor
  · rw [adjustSpeedImproved]
    split_ifs <;> rfl
  · have hs : segs.getLast?.isSome := List.getLast?_isSome.mpr h
    obtain ⟨l, hl⟩ := Option.isSome_iff_exists.mp hs
    exact ⟨List.foldl (simpleStep tempoA)
      (List.replicate (pyInt (l.stop * 1000)).toNat 0) segs,
      by simp only [alignSimple, hl]⟩

/-- Witness for C5 at a concrete oracle, clip, factor and segment list. -/
theorem C5_witness :
    adjustSpeedImproved (fun _ _ => none) [1] 2 = [1] ∧
    ∃ t, alignSimple (fun _ _ => none) [⟨0, 1 / 500, none⟩] = some t :=
  C5_failure_recovery (fun _ _ => none) [1] 2 [⟨0, 1 / 500, none⟩] (by simp)

/- ===== Final truncate/pad fallback (C7) ===== -/

/-- Counterexample to claim C7 as stated: in align.py the tempo-failure
fallback (line 66) appends a short clip unpadded.  A 1 ms clip against a
2 ms target window (speed factor 0.5, adjust factor 2.0 in range) whose
primitive call fails contributes 1 ms, not exactly target_duration_ms. -/
theorem C7_counterexample :
    alignPyStep (fun _ _ => none) [] 0 ⟨0, 1 / 500, some [3]⟩ = [3] ∧
    (([3] : List ℤ).length : ℤ) ≠
      pyInt ((1 / 500 : ℚ) * 1000) - pyInt ((0 : ℚ) * 1000) := by
  have hpy2 : pyInt ((1 / 500 : ℚ) * 1000) = 2 := by
    rw [pyInt, if_pos (by norm_num)]
    norm_num
  have hpy0 : pyInt ((0 : ℚ) * 1000) = 0 := by
    rw [pyInt, if_pos (by norm_num)]
    norm_num
  constructor
  · simp only [alignPyStep, hpy2, hpy0]
    norm_num [truncOrKeep]
  · rw [hpy2, hpy0]
    norm_num

/-- Claim C7 (amended): every truncation fallback yields exactly
target_duration_ms (both align.py branches and the improved aligner's
borrow-reject trim), and the out-of-range fallback of align.py pads a
short clip with trailing silence to exactly target_duration_ms; the
tempo-failure fallback of align.py, however, leaves a short clip at its
own length, and the improved aligner has no padding path. -/
theorem C7_fallback_exact (audio : List ℤ) (target : ℤ) (h : 0 ≤ target) :
    ((truncOrPad audio target).length : ℤ) = target ∧
    (target < (audio.length : ℤ) → ((truncOrKeep audio target).length : ℤ) = target) ∧
    ((audio.length : ℤ) ≤ target → truncOrKeep audio target = audio) ∧
    (∀ adjusted : List ℤ, target < (adjusted.length : ℤ) →
      ((adjusted.take target.toNat).length : ℤ) = target) := by
  refine ⟨?_, ?_, ?_, ?_⟩
  · rw [truncOrPad]
    split_ifs with h1
    · simp only [List.length_take]
      omega
    · simp only [List.length_append, List.length_replicate]
      omega
  · intro h1
    rw [truncOrKeep, if_pos h1]
    simp only [List.length_take]
    omega
  · intro h1
    rw [truncOrKeep, if_neg (not_lt.mpr h1)]
  · intro adjusted h1
    simp only [List.length_take]
    omega

/-- Witness for C7 at a concrete short clip and target window. -/
theorem C7_witness :
    ((truncOrPad [5, 5] 3).length : ℤ) = 3 ∧
    ((3 : ℤ) < (([5, 5] : List ℤ).length : ℤ) →
      ((truncOrKeep [5, 5] 3).length : ℤ) = 3) ∧
    ((([5, 5] : List ℤ).length : ℤ) ≤ 3 → truncOrKeep [5, 5] 3 = [5, 5]) ∧
    (∀ adjusted : List ℤ, (3 : ℤ) < (adjusted.length : ℤ) →
      ((adjusted.take (3 : ℤ).toNat).length : ℤ) = 3) :=
  C7_fallback_exact [5, 5] 3 (by norm_num)

/- ===== TimingAnalyzer neighbor silence (C6) and silent segments (C9) ===== -/

lemma pyInt_nonneg (q : ℚ) (h : 0 ≤ q) : pyInt q = ⌊q⌋ := by
  rw [pyInt, if_pos h]

lemma timingAt_some {segments : List Segment} {i : ℕ} {rec : TimingInfo}
    (h : timingAt segments i = some rec) :
    ∃ seg audio, segments.get? i = some seg ∧ seg.audio = some audio ∧
      rec.index = i ∧
      rec.start_ms = pyInt (seg.start * 1000) ∧
      rec.end_ms = pyInt (seg.stop * 1000) ∧
      rec.audio = audio ∧
      rec.silence_before = ((pyInt (seg.start * 1000) : ℤ) : ℚ) -
        (if 0 < i then
          (match segments.get? (i - 1) with
           | some p => p.stop * 1000
           | none => 0)
         else 0) ∧
      rec.silence_after =
        (if i < segments.length - 1 then
          (match segments.get? (i + 1) with
           | some nx => QInf.fin (nx.start * 1000 - ((pyInt (seg.stop * 1000) : ℤ) : ℚ))
           | none => QInf.inf)
         else QInf.inf) := by
  rw [timingAt] at h
  cases hseg : segments.get? i with
  | none => rw [hseg] at h; exact absurd h (by simp)
  | some seg =>
    rw [hseg, Option.some_bind] at h
    cases haud : seg.audio with
    | none => rw [haud] at h; exact absurd h (by simp)
    | some audio =>
      rw [haud, Option.map_some'] at h
      injection h with h2
      subst h2
      exact ⟨seg, audio, rfl, haud, rfl, rfl, rfl, rfl, rfl, rfl⟩

/-- Evaluation of analyze_timing on a one-segment list whose segment
carries audio. -/
lemma analyzeTiming_singleton (s : Segment) (a : List ℤ) (h : s.audio = some a) :
    analyzeTiming [s] =
      [{ index := 0
         start_ms := pyInt (s.start * 1000)
         end_ms := pyInt (s.stop * 1000)
         target := pyInt (s.stop * 1000) - pyInt (s.start * 1000)
         audio := a
         ratio := (a.length : ℚ) /
           ((pyInt (s.stop * 1000) - pyInt (s.start * 1000) : ℤ) : ℚ)
         silence_before := ((pyInt (s.start * 1000) : ℤ) : ℚ)
         silence_after := QInf.inf
         adjustment_needed := decide (PERFECT_THRESHOLD < |1 - (a.length : ℚ) /
           ((pyInt (s.stop * 1000) - pyInt (s.start * 1000) : ℤ) : ℚ)|) }] := by
  have ht : timingAt [s] 0 =
      some { index := 0
             start_ms := pyInt (s.start * 1000)
             end_ms := pyInt (s.stop * 1000)
             target := pyInt (s.stop * 1000) - pyInt (s.start * 1000)
             audio := a
             ratio := (a.length : ℚ) /
               ((pyInt (s.stop * 1000) - pyInt (s.start * 1000) : ℤ) : ℚ)
             silence_before := ((pyInt (s.start * 1000) : ℤ) : ℚ)
             silence_after := QInf.inf
             adjustment_needed := decide (PERFECT_THRESHOLD < |1 - (a.length : ℚ) /
               ((pyInt (s.stop * 1000) - pyInt (s.start * 1000) : ℤ) : ℚ)|) } := by
    rw [timingAt, show ([s] : List Segment).get? 0 = some s from rfl,
      Option.some_bind, h, Option.map_some']
    simp
  rw [analyzeTiming, show ([s] : List Segment).length = 1 from rfl,
    show List.range 1 = [0] from by decide,
    List.filterMap_cons_some ht, List.filterMap_nil]

/-- The concrete first segment used for C6: it starts at 2 s, so its
gap to the previous segment is computed against prev_end = 0 and comes
out as 2000 ms, not the 0 claimed for the first segment. -/
def c6seg : Segment := ⟨2, 3, some [1]⟩

def c6rec : TimingInfo :=
  { index := 0
    start_ms := pyInt (c6seg.start * 1000)
    end_ms := pyInt (c6seg.stop * 1000)
    target := pyInt (c6seg.stop * 1000) - pyInt (c6seg.start * 1000)
    audio := [1]
    ratio := (([1] : List ℤ).length : ℚ) /
      ((pyInt (c6seg.stop * 1000) - pyInt (c6seg.start * 1000) : ℤ) : ℚ)
    silence_before := ((pyInt (c6seg.start * 1000) : ℤ) : ℚ)
    silence_after := QInf.inf
    adjustment_needed := decide (PERFECT_THRESHOLD < |1 - (([1] : List ℤ).length : ℚ) /
      ((pyInt (c6seg.stop * 1000) - pyInt (c6seg.start * 1000) : ℤ) : ℚ)|) }

/-- Counterexample to claim C6 as stated: the first segment of the list
does not get silence_before = 0; analyze_timing measures its gap to the
timeline origin, here 2000 ms for a segment starting at 2 s. -/
theorem C6_counterexample :
    (analyzeTiming [c6seg]).map TimingInfo.silence_before = [2000] ∧
    ((2000 : ℚ) ≠ 0) := by
  constructor
  · rw [analyzeTiming_singleton c6seg [1] rfl]
    simp only [List.map_cons, List.map_nil]
    rw [show c6seg.start = 2 from rfl]
    rw [pyInt_nonneg _ (by norm_num)]
    norm_num
  · norm_num

/-- Claim C6 (amended): analyze_timing derives neighbor silence from the
previous segment's end and the next segment's start; the last segment
gets silence_after = inf (unconstrained), and the first segment gets
silence_before equal to its own start_ms (its gap to the timeline
origin 0), not silence_before = 0. -/
theorem C6_neighbor_silence (segments : List Segment) (rec : TimingInfo)
    (h : rec ∈ analyzeTiming segments) :
    (rec.index = 0 → rec.silence_before = ((rec.start_ms : ℤ) : ℚ)) ∧
    (∀ p, 0 < rec.index → segments.get? (rec.index - 1) = some p →
      rec.silence_before = ((rec.start_ms : ℤ) : ℚ) - p.stop * 1000) ∧
    (¬ rec.index < segments.length - 1 → rec.silence_after = QInf.inf) ∧
    (∀ nx, rec.index < segments.length - 1 → segments.get? (rec.index + 1) = some nx →
      rec.silence_after = QInf.fin (nx.start * 1000 - ((rec.end_ms : ℤ) : ℚ))) := by
  obtain ⟨i, hi, hti⟩ := List.mem_filterMap.mp h
  obtain ⟨seg, audio, hseg, haud, hidx, hstart, hend, hau, hsb, hsa⟩ := timingAt_some hti
  refine ⟨?_, ?_, ?_, ?_⟩
  · intro h0
    rw [hidx] at h0
    subst h0
    rw [hsb, if_neg (by omega), hstart, sub_zero]
  · intro p hpos hget
    rw [hidx] at hpos hget
    rw [hsb, if_pos hpos, hget, hstart]
  · intro hnot
    rw [hidx] at hnot
    rw [hsa, if_neg hnot]
  · intro nx hlt hget
    rw [hidx] at hlt hget
    rw [hsa, if_pos hlt, hget, hend]

/-- Witness for C6: the record of the single segment of [c6seg] has
index 0 and silence_before equal to its start_ms. -/
theorem C6_witness : c6rec.silence_before = ((c6rec.start_ms : ℤ) : ℚ) :=
  (C6_neighbor_silence [c6seg] c6rec
    (by rw [analyzeTiming_singleton c6seg [1] rfl]
        exact List.mem_singleton.mpr rfl)).1 rfl

/- ===== Segments without audio (C9) ===== -/

/-- Counterexample to claim C9 as stated: in the improved aligner a
sole segment with no synthesized clip contributes nothing at all — the
master track comes out empty (0 ms), not target_duration_ms (2 ms) of
silence. -/
theorem C9_counterexample :
    alignImprovedRun (fun _ _ => none) [⟨0, 1 / 500, none⟩] = ([] : List ℤ) ∧
    (List.length ([] : List ℤ) : ℤ) ≠
      pyInt ((1 / 500 : ℚ) * 1000) - pyInt ((0 : ℚ) * 1000) := by
  constructor
  · rfl
  · rw [pyInt_nonneg _ (by norm_num), pyInt_nonneg _ (by norm_num)]
    norm_num

/-- Claim C9 (amended): a segment with no synthesized clip is excluded
from the tempo-correction and borrowing logic — the simple compositor
leaves the track unchanged for it, and analyze_timing produces records
only for segments whose audio is present — but it does not in general
contribute exactly target_duration_ms of silence (in the improved
aligner a sole audio-less segment yields an empty track). -/
theorem C9_silent_excluded (tempo : ChainOracle) (track : List ℤ) (seg : Segment)
    (h : seg.audio = none) (segs : List Segment) (rec : TimingInfo)
    (hrec : rec ∈ analyzeTiming segs) :
    simpleStep tempo track seg = track ∧
    ∃ s a, segs.get? rec.index = some s ∧ s.audio = some a ∧ rec.audio = a := by
  constructor
  · rw [simpleStep, h]
  · obtain ⟨i, hi, hti⟩ := List.mem_filterMap.mp hrec
    obtain ⟨s, a, hseg, haud, hidx, _, _, hau, _, _⟩ := timingAt_some hti
    refine ⟨s, a, ?_, haud, hau⟩
    rw [hidx]
    exact hseg

/-- The concrete audio-carrying segment whose record witnesses C9. -/
def c9seg : Segment := ⟨0, 1, some [9]⟩

def c9rec : TimingInfo :=
  { index := 0
    start_ms := pyInt (c9seg.start * 1000)
    end_ms := pyInt (c9seg.stop * 1000)
    target := pyInt (c9seg.stop * 1000) - pyInt (c9seg.start * 1000)
    audio := [9]
    ratio := (([9] : List ℤ).length : ℚ) /
      ((pyInt (c9seg.stop * 1000) - pyInt (c9seg.start * 1000) : ℤ) : ℚ)
    silence_before := ((pyInt (c9seg.start * 1000) : ℤ) : ℚ)
    silence_after := QInf.inf
    adjustment_needed := decide (PERFECT_THRESHOLD < |1 - (([9] : List ℤ).length : ℚ) /
      ((pyInt (c9seg.stop * 1000) - pyInt (c9seg.start * 1000) : ℤ) : ℚ)|) }

/-- Witness for C9 at a concrete audio-less segment and a concrete
timing record. -/
theorem C9_witness :
    simpleStep (fun _ _ => none) [] ⟨0, 2, none⟩ = [] ∧
    ∃ s a, [c9seg].get? c9rec.index = some s ∧ s.audio = some a ∧ c9rec.audio = a :=
  C9_silent_excluded (fun _ _ => none) [] ⟨0, 2, none⟩ rfl [c9seg] c9rec
    (by rw [analyzeTiming_singleton c9seg [9] rfl]
        exact List.mem_singleton.mpr rfl)

/- ===== GapBorrower (C3) ===== -/

/-- The concrete C3 segment: a 2 ms window from 2 ms to 4 ms holding a
3 ms clip (duration_ratio 3/2, aggressive tier, factor clamped to 0.7). -/
def c3seg : Segment := ⟨1 / 500, 1 / 250, some [9, 9, 9]⟩

/-- The C3 oracle: the primitive returns a 3 ms adjusted clip, leaving
a 1 ms overhang over the 2 ms target window. -/
def c3tempo : ChainOracle := fun _ _ => some [7, 7, 7]

lemma c3_start : pyInt (c3seg.start * 1000) = 2 := by
  rw [show c3seg.start = 1 / 500 from rfl,
    show (1 / 500 : ℚ) * 1000 = 2 from by norm_num,
    pyInt_nonneg _ (by norm_num)]
  norm_num

lemma c3_end : pyInt (c3seg.stop * 1000) = 4 := by
  rw [show c3seg.stop = 1 / 250 from rfl,
    show (1 / 250 : ℚ) * 1000 = 4 from by norm_num,
    pyInt_nonneg _ (by norm_num)]
  norm_num

lemma c3_speed : calculateGentleSpeed (3 / 2) = 0.7 := by
  have habs : |1 - (3 / 2 : ℚ)| = 1 / 2 := by
    rw [show (1 : ℚ) - 3 / 2 = -(1 / 2) from by norm_num, abs_neg,
      abs_of_pos (show (0 : ℚ) < 1 / 2 from by norm_num)]
  rw [calculateGentleSpeed, habs,
    if_neg (by norm_num [PERFECT_THRESHOLD]),
    if_neg (by norm_num [GENTLE_THRESHOLD]),
    if_neg (by norm_num [ MODERATE_THRESHOLD]),
    show (1 : ℚ) / (3 / 2) = 2 / 3 from by norm_num,
    min_eq_right (show (2 / 3 : ℚ) ≤ MAX_SPEED_FACTOR from by norm_num [MAX_SPEED_FACTOR]),
    max_eq_left (show (2 / 3 : ℚ) ≤ MIN_SPEED_FACTOR from by norm_num [MIN_SPEED_FACTOR])]
  norm_num [MIN_SPEED_FACTOR]

lemma c3_abs_07 : |(0.7 : ℚ) - 1| = 0.3 := by
  rw [show (0.7 : ℚ) - 1 = -(0.3) from by norm_num, abs_neg,
    abs_of_pos (show (0 : ℚ) < 0.3 from by norm_num)]

lemma c3_chain : chainStages 0.7 = [0.7] := by
  have hfuel : chainFuel 0.7 = 0 := by
    rw [chainFuel, if_neg (by norm_num), if_neg (by norm_num)]
  have hloop : chainLoop 0 0.7 = ([], 0.7) := rfl
  rw [chainStages, hfuel, hloop]
  simp only
  rw [c3_abs_07, if_pos (by norm_num)]
  simp

lemma c3_adjust : adjustSpeedImproved c3tempo [9, 9, 9] 0.7 = [7, 7, 7] := by
  rw [adjustSpeedImproved,
    if_neg (by rw [c3_abs_07]; norm_num),
    if_neg (by rw [c3_chain]; simp)]
  rfl

lemma c3_analysis :
    analyzeTiming [c3seg] = [⟨0, 2, 4, 2, [9, 9, 9], 3 / 2, 2, QInf.inf, true⟩] := by
  rw [analyzeTiming_singleton c3seg [9, 9, 9] rfl]
  congr 1
  rw [TimingInfo.mk.injEq]
  refine ⟨rfl, c3_start, c3_end, ?_, rfl, ?_, ?_, rfl, ?_⟩
  · rw [c3_start, c3_end]
    norm_num
  · rw [c3_start, c3_end]
    norm_num
  · rw [c3_start]
    norm_num
  · rw [decide_eq_true_eq, c3_start, c3_end]
    rw [show ((([9, 9, 9] : List ℤ).length : ℚ)) / (((4 : ℤ) - 2 : ℤ) : ℚ) = 3 / 2
      from by norm_num]
    rw [show (1 : ℚ) - 3 / 2 = -(1 / 2) from by norm_num, abs_neg,
      abs_of_pos (show (0 : ℚ) < 1 / 2 from by norm_num)]
    norm_num [PERFECT_THRESHOLD]

lemma c3_step :
    smartStep c3tempo ([], 0) ⟨0, 2, 4, 2, [9, 9, 9], 3 / 2, 2, QInf.inf, true⟩ =
      ([7, 7, 7], 5) := by
  rw [smartStep]
  simp only [c3_speed, c3_adjust]
  rw [if_pos (show (0 : ℤ) < 2 from by norm_num)]
  rw [if_neg (show ¬ (true = false) from by simp)]
  rw [if_neg (show ¬ (0.7 : ℚ) = 1 from by norm_num)]
  simp only [List.length_cons, List.length_nil, List.nil_append, QInf.scale, qinfMinQ]
  norm_num [pyNegSlice, pyInt_nonneg, min_def, max_def]
  simp
  norm_num

/-- Claim C3 is right about the intended design, but the code is wrong
at it (code_bug): when the accepted borrow amount can_borrow_before is
fractional and below 1 ms, Python's combined[:-int(can_borrow_before)]
is combined[:-0] == combined[:0], which destroys the entire previously
emitted track instead of shortening it by can_borrow_before.  Here 2 ms
of emitted silence vanish: the run yields a 3 ms track ([7,7,7]) where
the claim requires 2 - 0.5 + 3 = 4.5 ms. -/
theorem C3_borrow_bug :
    alignImprovedRun c3tempo [c3seg] = [7, 7, 7] ∧
    ¬ ((alignImprovedRun c3tempo [c3seg]).length : ℚ) = 2 - 1 / 2 + 3 := by
  have hrun : alignImprovedRun c3tempo [c3seg] = [7, 7, 7] := by
    rw [alignImprovedRun, c3_analysis, applySmartAlignment,
      List.foldl_cons, List.foldl_nil, c3_step]
  refine ⟨hrun, ?_⟩
  rw [hrun]
  norm_num

end AutoDub
